import Mathlib

/-!
Shallow embedding of `src/panfrost/bifrost/bi_special.c` (Bifrost special-op
lowering): base-2 exponential, base-2 logarithm and screen-space derivative
lowering into `bi_instruction` sequences.

Modelling conventions, matching the C source:
* A C designated-initializer zero-fills every unmentioned field; the Lean
  structure gives every field the corresponding zero-initialized default.
* The fixed-size C arrays `src[4]`, `src_types[4]`, `src_neg[4]` and
  `swizzle[4][...]` are modelled as lists padded to length 4 with the
  zero-initialized element (`src4`, `types4`, `neg4`, `swz4`).
* `bi_make_temp(ctx)` allocates a fresh SSA temporary from a monotone
  counter in the context; the k-th call inside one lowering returns
  `BiIndex.temp (ctx.temp_base + k)`.
* `pan_src_index` / `pan_dest_index` resolve NIR references to builder
  indices; they are modelled as the already-resolved index carried by the
  ALU instruction record.
* Enumeration types declared in `compiler.h` (not part of the given
  sources) are modelled with the constructors this file uses, first
  constructor = C value 0 (the zero-initializer default).  `BI_ROUND_RTE`
  does not occur in this file and is modelled from the spec wording
  "explicit round-to-nearest-even" so that the corresponding claim is
  statable.
-/

/-- Base type tag of a NIR ALU type (`nir_type_float` & friends). -/
inductive nir_base where
  | invalid
  | int
  | uint
  | float
  deriving DecidableEq, Repr

/-- A NIR ALU type: base tag plus bit size (C packs these into one enum,
e.g. `nir_type_float32 = nir_type_float | 32`). -/
structure nir_alu_type where
  base : nir_base := .invalid
  size : Nat := 0
  deriving DecidableEq, Repr

def nir_type_invalid : nir_alu_type := { base := .invalid, size := 0 }
def nir_type_float32 : nir_alu_type := { base := .float, size := 32 }
def nir_type_int32 : nir_alu_type := { base := .int, size := 32 }
def nir_type_uint32 : nir_alu_type := { base := .uint, size := 32 }
def nir_type_uint8 : nir_alu_type := { base := .uint, size := 8 }

/-- NIR opcode of the ALU instruction being lowered; this file only
dispatches on `nir_op_fddx` vs `nir_op_fddy`. -/
inductive nir_op where
  | nir_op_fddx
  | nir_op_fddy
  deriving DecidableEq, Repr

/-- The slice of `nir_alu_instr` this file reads: the opcode, the resolved
builder index and first swizzle component of source 0, the resolved
destination index, and `nir_dest_bit_size(instr->dest.dest)`. -/
structure nir_alu_instr where
  op : nir_op
  src0_index : Nat
  src0_swizzle : Nat
  dest_index : Nat
  dest_bit_size : Nat
  deriving DecidableEq, Repr

/-- Instruction class (`enum bi_class`, values used in this file). -/
inductive bi_class where
  | BI_NONE
  | BI_FMA
  | BI_CONVERT
  | BI_SPECIAL_ADD
  | BI_FREXP
  | BI_REDUCE_FMA
  | BI_TABLE
  | BI_MOV
  | BI_BITWISE
  | BI_IMATH
  | BI_ADD
  deriving DecidableEq, Repr

/-- Sub-opcodes of `BI_SPECIAL_ADD` used in this file. -/
inductive bi_special_op where
  | BI_SPECIAL_EXP2_LOW
  | BI_SPECIAL_CLPER_V6
  | BI_SPECIAL_CLPER_V7
  deriving DecidableEq, Repr

inductive bi_frexp_op where
  | BI_FREXPE_LOG
  deriving DecidableEq, Repr

inductive bi_reduce_op where
  | BI_REDUCE_ADD_FREXPM
  deriving DecidableEq, Repr

inductive bi_table_op where
  | BI_TABLE_LOG2_U_OVER_U_1_LOW
  deriving DecidableEq, Repr

inductive bi_bitwise_op where
  | BI_BITWISE_AND
  | BI_BITWISE_OR
  | BI_BITWISE_XOR
  deriving DecidableEq, Repr

inductive bi_imath_op where
  | BI_IMATH_ADD
  | BI_IMATH_SUB
  deriving DecidableEq, Repr

/-- The per-class `op` union of `bi_instruction`; `opNone` is the
zero-initialized union (every designated sub-field false/zero). -/
inductive bi_op where
  | opNone
  | mscale
  | special (s : bi_special_op)
  | frexp (f : bi_frexp_op)
  | reduce (r : bi_reduce_op)
  | table (t : bi_table_op)
  | bitwise (b : bi_bitwise_op)
  | imath (i : bi_imath_op)
  deriving DecidableEq, Repr

/-- Rounding-mode tag (`enum bi_round`).  `BI_ROUND_NONE` is the C value 0
(zero-initializer default: no explicit rounding override).  `BI_ROUND_RTZ`
occurs in this file.  `BI_ROUND_RTE` is modelled from the spec wording
"explicit round-to-nearest-even" (it does not occur in the source file)
so that claims about an explicit RTE tag can be stated. -/
inductive bi_round where
  | BI_ROUND_NONE
  | BI_ROUND_RTE
  | BI_ROUND_RTZ
  deriving DecidableEq, Repr

/-- Subgroup size field of the cross-lane (CLPER) auxiliary state. -/
inductive bi_subgroup where
  | BI_SUBGROUP_SUBGROUP2
  | BI_SUBGROUP_SUBGROUP4
  | BI_SUBGROUP_SUBGROUP8
  deriving DecidableEq, Repr

/-- Lane-operation modifier of the CLPER auxiliary state. -/
inductive bi_lane_op where
  | BI_LANE_OP_NONE
  | BI_LANE_OP_XOR
  | BI_LANE_OP_ACCUMULATE
  deriving DecidableEq, Repr

/-- Inactive-lane result policy of the CLPER auxiliary state. -/
inductive bi_inactive_result where
  | BI_INACTIVE_RESULT_ZERO
  | BI_INACTIVE_RESULT_UMAX
  deriving DecidableEq, Repr

/-- A builder-level value index.  The C encoding is an `unsigned` with
high-bit flags (`BIR_INDEX_CONSTANT | off`, `BIR_INDEX_ZERO`,
`BIR_INDEX_FAU | BIR_FAU_LANE_ID`); we model the disjoint cases as
constructors.  `null` is the zero index (unset source slot), `temp n` a
fresh temporary from `bi_make_temp`, `index n` a resolved NIR
source/destination index. -/
inductive BiIndex where
  | null
  | temp (n : Nat)
  | index (n : Nat)
  | constant (off : Nat)
  | zero
  | fau_lane_id
  deriving DecidableEq, Repr

/-- Pad a source-index list to the 4-slot C array, zero-filling with the
null index. -/
def src4 (l : List BiIndex) : List BiIndex :=
  (l ++ List.replicate 4 BiIndex.null).take 4

/-- Pad a source-type list to the 4-slot C array, zero-filling with the
invalid type. -/
def types4 (l : List nir_alu_type) : List nir_alu_type :=
  (l ++ List.replicate 4 nir_type_invalid).take 4

/-- Pad a negate-flag list to the 4-slot C array, zero-filling with
false. -/
def neg4 (l : List Bool) : List Bool :=
  (l ++ List.replicate 4 false).take 4

/-- Pad a swizzle initializer to the 4-row C array, zero-filling rows with
the empty (all-zero) row. -/
def swz4 (l : List (List Nat)) : List (List Nat) :=
  (l ++ List.replicate 4 []).take 4

/-- The slice of `bi_instruction` this file writes.  Defaults are the C
zero-initializer values; the CLPER auxiliary sub-fields
(`special.subgroup_sz`, `special.clper.lane_op_mod`,
`special.clper.inactive_res`) are flattened into top-level fields. -/
structure bi_instruction where
  type : bi_class := .BI_NONE
  op : bi_op := .opNone
  dest : BiIndex := .null
  dest_type : nir_alu_type := nir_type_invalid
  src : List BiIndex := src4 []
  src_types : List nir_alu_type := types4 []
  constant : Nat := 0
  round : bi_round := .BI_ROUND_NONE
  src_neg : List Bool := neg4 []
  swizzle : List (List Nat) := swz4 []
  subgroup_sz : bi_subgroup := .BI_SUBGROUP_SUBGROUP2
  lane_op_mod : bi_lane_op := .BI_LANE_OP_NONE
  inactive_res : bi_inactive_result := .BI_INACTIVE_RESULT_ZERO
  deriving DecidableEq, Repr

/-- The zero-initialized instruction, used as the out-of-range default. -/
def bi_null_instruction : bi_instruction := {}

/-- `l[i]` with the zero instruction out of range. -/
def getI (l : List bi_instruction) (i : Nat) : bi_instruction :=
  l.getD i bi_null_instruction

/-- The slice of `bi_context` this file reads: the architecture version
tag (`ctx->arch`) and the state of the fresh-temporary counter at entry
to the lowering. -/
structure bi_context where
  arch : Nat
  temp_base : Nat
  deriving DecidableEq, Repr

/-- `bi_make_temp(ctx)`: the k-th allocation inside one lowering returns
the fresh temporary index `temp_base + k`. -/
def bi_make_temp (ctx : bi_context) (k : Nat) : BiIndex :=
  .temp (ctx.temp_base + k)

/-- `pan_src_index(&instr->src[0].src)`: the resolved builder index of
source 0. -/
def pan_src_index (instr : nir_alu_instr) : BiIndex :=
  .index instr.src0_index

/-- `pan_dest_index(&instr->dest.dest)`: the resolved builder index of the
destination. -/
def pan_dest_index (instr : nir_alu_instr) : BiIndex :=
  .index instr.dest_index

/-- `bi_emit_fexp2_new`: the 3-instruction base-2 exponential lowering
(FMA_MSCALE, F2I, FEXP2_FAST), emitted in that order. -/
def bi_emit_fexp2_new (ctx : bi_context) (instr : nir_alu_instr) :
    List bi_instruction :=
  /- FMA_MSCALE T, X, 1.0, 0, 0x18 -/
  let mscale : bi_instruction := {
    type := .BI_FMA
    op := .mscale
    dest := bi_make_temp ctx 0
    dest_type := nir_type_float32
    src := src4 [pan_src_index instr, .constant 0, .zero, .constant 32]
    src_types := types4 [nir_type_float32, nir_type_float32,
                         nir_type_float32, nir_type_int32]
    /- 0x3f800000 = 1.0f as fp32, 24 = shift to multiply by 2^24 -/
    constant := 0x3f800000 ||| (24 <<< 32)
    swizzle := swz4 [[instr.src0_swizzle]] }
  /- F2I_RTE T, T -/
  let f2i : bi_instruction := {
    type := .BI_CONVERT
    dest := bi_make_temp ctx 1
    dest_type := nir_type_int32
    src := src4 [mscale.dest]
    src_types := types4 [nir_type_float32]
    round := .BI_ROUND_NONE }
  /- FEXP2_FAST T, T, X -/
  let fexp : bi_instruction := {
    type := .BI_SPECIAL_ADD
    op := .special .BI_SPECIAL_EXP2_LOW
    dest := pan_dest_index instr
    dest_type := nir_type_float32
    src := src4 [f2i.dest, mscale.src.getD 0 .null]
    src_types := types4 [nir_type_int32, nir_type_float32]
    swizzle := swz4 [[], [instr.src0_swizzle]] }
  [mscale, f2i, fexp]

/-- `bi_emit_flog2_new`: the 5-instruction base-2 logarithm lowering
(LOG_FREXPE, I32_TO_F32, ADD_FREXPM, FLOG2_HELP, FMA), emitted in that
order. -/
def bi_emit_flog2_new (ctx : bi_context) (instr : nir_alu_instr) :
    List bi_instruction :=
  /- LOG_FREXPE X -/
  let frexpe : bi_instruction := {
    type := .BI_FREXP
    op := .frexp .BI_FREXPE_LOG
    dest := bi_make_temp ctx 0
    dest_type := nir_type_int32
    src := src4 [pan_src_index instr]
    src_types := types4 [nir_type_float32]
    swizzle := swz4 [[instr.src0_swizzle]] }
  /- I32_TO_F32 m -/
  let i2f : bi_instruction := {
    type := .BI_CONVERT
    dest := bi_make_temp ctx 1
    dest_type := nir_type_float32
    src := src4 [frexpe.dest]
    src_types := types4 [nir_type_int32]
    round := .BI_ROUND_RTZ }
  /- ADD_FREXPM (x-1), -1.0, X -/
  let x_minus_1 : bi_instruction := {
    type := .BI_REDUCE_FMA
    op := .reduce .BI_REDUCE_ADD_FREXPM
    dest := bi_make_temp ctx 2
    dest_type := nir_type_float32
    src := src4 [.constant 0, pan_src_index instr]
    src_types := types4 [nir_type_float32, nir_type_float32]
    /- -1.0 -/
    constant := 0xBF800000
    swizzle := swz4 [[], [instr.src0_swizzle]] }
  /- FLOG2_HELP log2(x)/(x-1), x -/
  let help : bi_instruction := {
    type := .BI_TABLE
    op := .table .BI_TABLE_LOG2_U_OVER_U_1_LOW
    dest := bi_make_temp ctx 3
    dest_type := nir_type_float32
    src := src4 [pan_src_index instr]
    src_types := types4 [nir_type_float32]
    swizzle := swz4 [[instr.src0_swizzle]] }
  /- FMA log2(x)/(x - 1), (x - 1), M -/
  let fma : bi_instruction := {
    type := .BI_FMA
    dest := pan_dest_index instr
    dest_type := nir_type_float32
    src := src4 [help.dest, x_minus_1.dest, i2f.dest]
    src_types := types4 [nir_type_float32, nir_type_float32,
                         nir_type_float32] }
  [frexpe, i2f, x_minus_1, help, fma]

/-- `bi_emit_fexp2`: dispatcher; the G71 (legacy) path is an unimplemented
TODO in the source and always falls through to the new path. -/
def bi_emit_fexp2 (ctx : bi_context) (instr : nir_alu_instr) :
    List bi_instruction :=
  bi_emit_fexp2_new ctx instr

/-- `bi_emit_flog2`: dispatcher; the G71 (legacy) path is an unimplemented
TODO in the source and always falls through to the new path. -/
def bi_emit_flog2 (ctx : bi_context) (instr : nir_alu_instr) :
    List bi_instruction :=
  bi_emit_flog2_new ctx instr

/-- `bi_emit_deriv`: the 6-instruction screen-space derivative lowering
(lane-ID MOV, AND, IADD, CLPER, CLPER, ADD-with-negate), emitted in that
order. -/
def bi_emit_deriv (ctx : bi_context) (instr : nir_alu_instr) :
    List bi_instruction :=
  let cur_lane : bi_instruction := {
    type := .BI_MOV
    dest := bi_make_temp ctx 0
    dest_type := nir_type_uint32
    src := src4 [.fau_lane_id]
    src_types := types4 [nir_type_uint32] }
  let lane1 : bi_instruction := {
    type := .BI_BITWISE
    op := .bitwise .BI_BITWISE_AND
    dest := bi_make_temp ctx 1
    dest_type := nir_type_uint32
    src := src4 [cur_lane.dest, .constant 0, .zero]
    src_types := types4 [nir_type_uint32, nir_type_uint32, nir_type_uint8]
    constant := if instr.op = .nir_op_fddx then 2 else 1 }
  let lane2 : bi_instruction := {
    type := .BI_IMATH
    op := .imath .BI_IMATH_ADD
    dest := bi_make_temp ctx 2
    dest_type := nir_type_uint32
    src := src4 [lane1.dest, .constant 0, .zero]
    src_types := types4 [nir_type_uint32, nir_type_uint32, nir_type_uint32]
    constant := if instr.op = .nir_op_fddx then 1 else 2 }
  let src := pan_src_index instr
  let clper1 : bi_instruction := {
    type := .BI_SPECIAL_ADD
    op := .special (if ctx.arch = 6 then .BI_SPECIAL_CLPER_V6
                    else .BI_SPECIAL_CLPER_V7)
    subgroup_sz := .BI_SUBGROUP_SUBGROUP4
    lane_op_mod := .BI_LANE_OP_NONE
    inactive_res := .BI_INACTIVE_RESULT_ZERO
    dest := bi_make_temp ctx 3
    dest_type := nir_type_uint32
    src := src4 [src, lane1.dest]
    src_types := types4 [nir_type_uint32, nir_type_uint32]
    swizzle := swz4 [[instr.src0_swizzle]] }
  let clper2 : bi_instruction := {
    type := .BI_SPECIAL_ADD
    op := .special (if ctx.arch = 6 then .BI_SPECIAL_CLPER_V6
                    else .BI_SPECIAL_CLPER_V7)
    subgroup_sz := .BI_SUBGROUP_SUBGROUP4
    lane_op_mod := .BI_LANE_OP_NONE
    inactive_res := .BI_INACTIVE_RESULT_ZERO
    dest := bi_make_temp ctx 4
    dest_type := nir_type_uint32
    src := src4 [src, lane2.dest]
    src_types := types4 [nir_type_uint32, nir_type_uint32]
    swizzle := swz4 [[instr.src0_swizzle]] }
  let ty : nir_alu_type := { base := .float, size := instr.dest_bit_size }
  let sub : bi_instruction := {
    type := .BI_ADD
    src := src4 [clper2.dest, clper1.dest]
    src_types := types4 [ty, ty]
    src_neg := neg4 [false, true]
    dest := pan_dest_index instr
    dest_type := ty }
  [cur_lane, lane1, lane2, clper1, clper2, sub]

/-!
## Single-assignment predicates

These predicates state the SSA discipline of an emitted sequence: a source
operand that is a fresh temporary must be the destination of a strictly
earlier instruction, no two instructions share a temporary destination, and
every allocated temporary is some instruction's destination.
-/

/-- Every temporary source operand of instruction `i` is the destination of
a strictly earlier instruction of the sequence. -/
def temps_defined_before (l : List bi_instruction) : Prop :=
  ∀ i, i < l.length → ∀ s ∈ (getI l i).src, ∀ k, s = BiIndex.temp k →
    ∃ j, j < i ∧ (getI l j).dest = BiIndex.temp k

/-- No two distinct instructions of the sequence write the same
temporary. -/
def temp_dest_unique (l : List bi_instruction) : Prop :=
  ∀ i, i < l.length → ∀ j, j < l.length → ∀ k,
    (getI l i).dest = BiIndex.temp k → (getI l j).dest = BiIndex.temp k → i = j

/-- Each of the `count` temporaries allocated from `base` is the
destination of some instruction of the sequence. -/
def temps_all_defined (l : List bi_instruction) (base count : Nat) : Prop :=
  ∀ d, d < count → ∃ j, j < l.length ∧ (getI l j).dest = BiIndex.temp (base + d)

/-- Full single-assignment discipline for a sequence that allocated
`count` fresh temporaries starting at `base`. -/
def single_assignment (l : List bi_instruction) (base count : Nat) : Prop :=
  temps_defined_before l ∧ temp_dest_unique l ∧ temps_all_defined l base count

/-- A concrete compiler context used to instantiate claims at a specific
input (architecture 7, temporary counter at 0). -/
def sample_ctx : bi_context := { arch := 7, temp_base := 0 }

/-- A concrete ALU operation used to instantiate claims at a specific
input: a horizontal derivative opcode, source index 5 with swizzle
component 0, destination index 9, 32-bit destination. -/
def sample_instr : nir_alu_instr :=
  { op := .nir_op_fddx, src0_index := 5, src0_swizzle := 0,
    dest_index := 9, dest_bit_size := 32 }

/-- C1 (counterexample): at a concrete logarithm input, the table-lookup
instruction (position 3, BI_TABLE) does not read the destination of the
mantissa-minus-one instruction (position 2, BI_REDUCE_FMA): its only
source is the original IR source operand. -/
theorem flog2_table_reads_step3_counterexample :
    (getI (bi_emit_flog2_new sample_ctx sample_instr) 2).dest ∉
      (getI (bi_emit_flog2_new sample_ctx sample_instr) 3).src := by
  decide

/-- C1 (amended): for every input, the table-lookup instruction (position
3, BI_TABLE) consumes the original logarithm source operand — the same IR
source the mantissa-minus-one instruction reads — and not the
BI_REDUCE_FMA result; the BI_REDUCE_FMA result is consumed by the final
FMA instead. -/
theorem flog2_table_reads_original_source (ctx : bi_context)
    (instr : nir_alu_instr) :
    (getI (bi_emit_flog2_new ctx instr) 3).type = .BI_TABLE ∧
    (getI (bi_emit_flog2_new ctx instr) 3).src = src4 [pan_src_index instr] ∧
    (getI (bi_emit_flog2_new ctx instr) 2).type = .BI_REDUCE_FMA ∧
    (getI (bi_emit_flog2_new ctx instr) 4).src.getD 1 .null =
      (getI (bi_emit_flog2_new ctx instr) 2).dest :=
  ⟨rfl, rfl, rfl, rfl⟩

/-- C2 (counterexample): at a concrete exponential input, the second
emitted instruction's rounding field is not an explicit
round-to-nearest-even tag. -/
theorem fexp2_f2i_explicit_rte_counterexample :
    (getI (bi_emit_fexp2_new sample_ctx sample_instr) 1).round ≠
      bi_round.BI_ROUND_RTE := by
  decide

/-- C2 (amended): for every input, the second emitted instruction of
exponential lowering converts the mscale result to a 32-bit integer, and
its rounding field is BI_ROUND_NONE — no explicit rounding-mode tag (the
hardware default, documented as round-to-nearest-even by the source's
F2I_RTE comment) — in particular not the explicit BI_ROUND_RTZ truncation
tag used elsewhere in the file. -/
theorem fexp2_f2i_round_none (ctx : bi_context) (instr : nir_alu_instr) :
    (getI (bi_emit_fexp2_new ctx instr) 1).type = .BI_CONVERT ∧
    (getI (bi_emit_fexp2_new ctx instr) 1).dest_type = nir_type_int32 ∧
    (getI (bi_emit_fexp2_new ctx instr) 1).src =
      src4 [(getI (bi_emit_fexp2_new ctx instr) 0).dest] ∧
    (getI (bi_emit_fexp2_new ctx instr) 1).round = .BI_ROUND_NONE :=
  ⟨rfl, rfl, rfl, rfl⟩

/-- C3: for every input, exponential lowering emits exactly 3
instructions, logarithm lowering exactly 5, derivative lowering exactly
6, each sequence in its fixed order of opcode classes. -/
theorem lowering_instruction_counts_fixed (ctx : bi_context)
    (instr : nir_alu_instr) :
    (bi_emit_fexp2_new ctx instr).length = 3 ∧
    (bi_emit_flog2_new ctx instr).length = 5 ∧
    (bi_emit_deriv ctx instr).length = 6 ∧
    (bi_emit_fexp2_new ctx instr).map bi_instruction.type =
      [.BI_FMA, .BI_CONVERT, .BI_SPECIAL_ADD] ∧
    (bi_emit_flog2_new ctx instr).map bi_instruction.type =
      [.BI_FREXP, .BI_CONVERT, .BI_REDUCE_FMA, .BI_TABLE, .BI_FMA] ∧
    (bi_emit_deriv ctx instr).map bi_instruction.type =
      [.BI_MOV, .BI_BITWISE, .BI_IMATH, .BI_SPECIAL_ADD, .BI_SPECIAL_ADD,
       .BI_ADD] :=
  ⟨rfl, rfl, rfl, rfl, rfl, rfl⟩

/-- C4: for every input, the final FMA of logarithm lowering reads exactly
[table output, mantissa-minus-one output, exponent-to-float output] in
that order, and carries no modifiers: default rounding field, no negate
flags, zero constant payload. -/
theorem flog2_final_fma_operands_and_modifiers (ctx : bi_context)
    (instr : nir_alu_instr) :
    (getI (bi_emit_flog2_new ctx instr) 4).src =
      src4 [(getI (bi_emit_flog2_new ctx instr) 3).dest,
            (getI (bi_emit_flog2_new ctx instr) 2).dest,
            (getI (bi_emit_flog2_new ctx instr) 1).dest] ∧
    (getI (bi_emit_flog2_new ctx instr) 4).round = .BI_ROUND_NONE ∧
    (getI (bi_emit_flog2_new ctx instr) 4).src_neg = neg4 [] ∧
    (getI (bi_emit_flog2_new ctx instr) 4).constant = 0 :=
  ⟨rfl, rfl, rfl, rfl⟩

/-- C5: for every input, the mscale instruction's 64-bit payload equals
0x3f800000 bitwise-or (24 shifted left by 32); bits 0-31 hold the
IEEE-754 pattern of 1.0f and bits 32-63 hold the shift amount 24, in
disjoint bit ranges. -/
theorem fexp2_mscale_constant_payload (ctx : bi_context)
    (instr : nir_alu_instr) :
    (getI (bi_emit_fexp2_new ctx instr) 0).constant =
      0x3f800000 ||| (24 <<< 32) ∧
    (getI (bi_emit_fexp2_new ctx instr) 0).constant % 2 ^ 32 = 0x3f800000 ∧
    (getI (bi_emit_fexp2_new ctx instr) 0).constant / 2 ^ 32 = 24 := by
  refine ⟨rfl, ?_, ?_⟩
  · show (0x3f800000 ||| (24 <<< 32)) % 2 ^ 32 = 0x3f800000
    decide
  · show (0x3f800000 ||| (24 <<< 32)) / 2 ^ 32 = 24
    decide

/-- C6: for every input, the second derivative instruction bitwise-ANDs
the lane ID with 2 for fddx (horizontal) and 1 for fddy (vertical), and
the third adds the complementary constant — 1 for fddx, 2 for fddy — to
the second instruction's result. -/
theorem deriv_lane_mask_and_add_constants (ctx : bi_context)
    (instr : nir_alu_instr) :
    (getI (bi_emit_deriv ctx instr) 1).op = .bitwise .BI_BITWISE_AND ∧
    (getI (bi_emit_deriv ctx instr) 1).src.getD 0 .null =
      (getI (bi_emit_deriv ctx instr) 0).dest ∧
    (getI (bi_emit_deriv ctx instr) 2).op = .imath .BI_IMATH_ADD ∧
    (getI (bi_emit_deriv ctx instr) 2).src.getD 0 .null =
      (getI (bi_emit_deriv ctx instr) 1).dest ∧
    (instr.op = .nir_op_fddx →
      (getI (bi_emit_deriv ctx instr) 1).constant = 2 ∧
      (getI (bi_emit_deriv ctx instr) 2).constant = 1) ∧
    (instr.op = .nir_op_fddy →
      (getI (bi_emit_deriv ctx instr) 1).constant = 1 ∧
      (getI (bi_emit_deriv ctx instr) 2).constant = 2) := by
  refine ⟨rfl, rfl, rfl, rfl, ?_, ?_⟩ <;> intro h <;>
    simp [getI, bi_emit_deriv, h]

/-- C7: for every input, the final derivative instruction is a BI_ADD
whose sources are [second cross-lane output, first cross-lane output]
with the negate flag set on the second source only, and whose source and
destination types are float at the destination's bit width. -/
theorem deriv_final_subtract_negate_flag (ctx : bi_context)
    (instr : nir_alu_instr) :
    (getI (bi_emit_deriv ctx instr) 5).type = .BI_ADD ∧
    (getI (bi_emit_deriv ctx instr) 5).src =
      src4 [(getI (bi_emit_deriv ctx instr) 4).dest,
            (getI (bi_emit_deriv ctx instr) 3).dest] ∧
    (getI (bi_emit_deriv ctx instr) 5).src_neg = neg4 [false, true] ∧
    (getI (bi_emit_deriv ctx instr) 5).src_types =
      types4 [{ base := .float, size := instr.dest_bit_size },
              { base := .float, size := instr.dest_bit_size }] ∧
    (getI (bi_emit_deriv ctx instr) 5).dest_type =
      { base := .float, size := instr.dest_bit_size } :=
  ⟨rfl, rfl, rfl, rfl, rfl⟩

/-- C8: for every input and architecture version, both cross-lane
instructions use the V6 sub-opcode exactly when the architecture tag is
6 and the V7 sub-opcode otherwise, and both carry quad subgroup size,
zero substitution for inactive lanes and no lane-operation modifier. -/
theorem deriv_clper_arch_and_aux_fields (ctx : bi_context)
    (instr : nir_alu_instr) :
    (ctx.arch = 6 →
      (getI (bi_emit_deriv ctx instr) 3).op =
        .special .BI_SPECIAL_CLPER_V6 ∧
      (getI (bi_emit_deriv ctx instr) 4).op =
        .special .BI_SPECIAL_CLPER_V6) ∧
    (ctx.arch ≠ 6 →
      (getI (bi_emit_deriv ctx instr) 3).op =
        .special .BI_SPECIAL_CLPER_V7 ∧
      (getI (bi_emit_deriv ctx instr) 4).op =
        .special .BI_SPECIAL_CLPER_V7) ∧
    (getI (bi_emit_deriv ctx instr) 3).subgroup_sz =
      .BI_SUBGROUP_SUBGROUP4 ∧
    (getI (bi_emit_deriv ctx instr) 4).subgroup_sz =
      .BI_SUBGROUP_SUBGROUP4 ∧
    (getI (bi_emit_deriv ctx instr) 3).inactive_res =
      .BI_INACTIVE_RESULT_ZERO ∧
    (getI (bi_emit_deriv ctx instr) 4).inactive_res =
      .BI_INACTIVE_RESULT_ZERO ∧
    (getI (bi_emit_deriv ctx instr) 3).lane_op_mod = .BI_LANE_OP_NONE ∧
    (getI (bi_emit_deriv ctx instr) 4).lane_op_mod = .BI_LANE_OP_NONE := by
  refine ⟨?_, ?_, rfl, rfl, rfl, rfl, rfl, rfl⟩ <;> intro h <;>
    constructor <;> simp [getI, bi_emit_deriv, h]

/-- The exponential sequence references a temporary only after its
defining instruction. -/
theorem temps_defined_before_fexp2 (ctx : bi_context)
    (instr : nir_alu_instr) :
    temps_defined_before (bi_emit_fexp2_new ctx instr) := by
  intro i hi s hs k hk
  subst hk
  simp only [bi_emit_fexp2_new, List.length_cons, List.length_nil] at hi
  interval_cases i
  · simp [getI, bi_emit_fexp2_new, src4, pan_src_index] at hs
  · simp [getI, bi_emit_fexp2_new, src4, bi_make_temp] at hs
    subst hs
    exact ⟨0, by omega, rfl⟩
  · simp [getI, bi_emit_fexp2_new, src4, bi_make_temp, pan_src_index] at hs
    subst hs
    exact ⟨1, by omega, rfl⟩

/-- No two instructions of the exponential sequence write the same
temporary. -/
theorem temp_dest_unique_fexp2 (ctx : bi_context) (instr : nir_alu_instr) :
    temp_dest_unique (bi_emit_fexp2_new ctx instr) := by
  intro i hi j hj k hki hkj
  simp only [bi_emit_fexp2_new, List.length_cons, List.length_nil] at hi hj
  interval_cases i <;> interval_cases j <;>
    simp [getI, bi_emit_fexp2_new, bi_make_temp, pan_dest_index]
      at hki hkj <;>
    omega

/-- Both temporaries of the exponential sequence are written. -/
theorem temps_all_defined_fexp2 (ctx : bi_context) (instr : nir_alu_instr) :
    temps_all_defined (bi_emit_fexp2_new ctx instr) ctx.temp_base 2 := by
  intro d hd
  have hlen : (bi_emit_fexp2_new ctx instr).length = 3 := rfl
  interval_cases d
  · exact ⟨0, by omega, rfl⟩
  · exact ⟨1, by omega, rfl⟩

/-- The logarithm sequence references a temporary only after its defining
instruction. -/
theorem temps_defined_before_flog2 (ctx : bi_context)
    (instr : nir_alu_instr) :
    temps_defined_before (bi_emit_flog2_new ctx instr) := by
  intro i hi s hs k hk
  subst hk
  simp only [bi_emit_flog2_new, List.length_cons, List.length_nil] at hi
  interval_cases i
  · simp [getI, bi_emit_flog2_new, src4, pan_src_index] at hs
  · simp [getI, bi_emit_flog2_new, src4, bi_make_temp] at hs
    subst hs
    exact ⟨0, by omega, rfl⟩
  · simp [getI, bi_emit_flog2_new, src4, pan_src_index] at hs
  · simp [getI, bi_emit_flog2_new, src4, pan_src_index] at hs
  · simp [getI, bi_emit_flog2_new, src4, bi_make_temp] at hs
    rcases hs with hs | hs | hs <;> subst hs
    · exact ⟨3, by omega, rfl⟩
    · exact ⟨2, by omega, rfl⟩
    · exact ⟨1, by omega, rfl⟩

/-- No two instructions of the logarithm sequence write the same
temporary. -/
theorem temp_dest_unique_flog2 (ctx : bi_context) (instr : nir_alu_instr) :
    temp_dest_unique (bi_emit_flog2_new ctx instr) := by
  intro i hi j hj k hki hkj
  simp only [bi_emit_flog2_new, List.length_cons, List.length_nil] at hi hj
  interval_cases i <;> interval_cases j <;>
    simp [getI, bi_emit_flog2_new, bi_make_temp, pan_dest_index]
      at hki hkj <;>
    omega

/-- All four temporaries of the logarithm sequence are written. -/
theorem temps_all_defined_flog2 (ctx : bi_context) (instr : nir_alu_instr) :
    temps_all_defined (bi_emit_flog2_new ctx instr) ctx.temp_base 4 := by
  intro d hd
  have hlen : (bi_emit_flog2_new ctx instr).length = 5 := rfl
  interval_cases d
  · exact ⟨0, by omega, rfl⟩
  · exact ⟨1, by omega, rfl⟩
  · exact ⟨2, by omega, rfl⟩
  · exact ⟨3, by omega, rfl⟩

/-- The derivative sequence references a temporary only after its
defining instruction. -/
theorem temps_defined_before_deriv (ctx : bi_context)
    (instr : nir_alu_instr) :
    temps_defined_before (bi_emit_deriv ctx instr) := by
  intro i hi s hs k hk
  subst hk
  simp only [bi_emit_deriv, List.length_cons, List.length_nil] at hi
  interval_cases i
  · simp [getI, bi_emit_deriv, src4] at hs
  · simp [getI, bi_emit_deriv, src4, bi_make_temp] at hs
    subst hs
    exact ⟨0, by omega, rfl⟩
  · simp [getI, bi_emit_deriv, src4, bi_make_temp] at hs
    subst hs
    exact ⟨1, by omega, rfl⟩
  · simp [getI, bi_emit_deriv, src4, bi_make_temp, pan_src_index] at hs
    subst hs
    exact ⟨1, by omega, rfl⟩
  · simp [getI, bi_emit_deriv, src4, bi_make_temp, pan_src_index] at hs
    subst hs
    exact ⟨2, by omega, rfl⟩
  · simp [getI, bi_emit_deriv, src4, bi_make_temp] at hs
    rcases hs with hs | hs <;> subst hs
    · exact ⟨4, by omega, rfl⟩
    · exact ⟨3, by omega, rfl⟩

/-- No two instructions of the derivative sequence write the same
temporary. -/
theorem temp_dest_unique_deriv (ctx : bi_context) (instr : nir_alu_instr) :
    temp_dest_unique (bi_emit_deriv ctx instr) := by
  intro i hi j hj k hki hkj
  simp only [bi_emit_deriv, List.length_cons, List.length_nil] at hi hj
  interval_cases i <;> interval_cases j <;>
    simp [getI, bi_emit_deriv, bi_make_temp, pan_dest_index] at hki hkj <;>
    omega

/-- All five temporaries of the derivative sequence are written. -/
theorem temps_all_defined_deriv (ctx : bi_context) (instr : nir_alu_instr) :
    temps_all_defined (bi_emit_deriv ctx instr) ctx.temp_base 5 := by
  intro d hd
  have hlen : (bi_emit_deriv ctx instr).length = 6 := rfl
  interval_cases d
  · exact ⟨0, by omega, rfl⟩
  · exact ⟨1, by omega, rfl⟩
  · exact ⟨2, by omega, rfl⟩
  · exact ⟨3, by omega, rfl⟩
  · exact ⟨4, by omega, rfl⟩

/-- C9: every lowering obeys single-assignment for every input: each
temporary source operand is the destination of a strictly earlier
instruction of the same sequence, and each allocated temporary is the
destination of exactly one instruction. -/
theorem lowerings_single_assignment (ctx : bi_context)
    (instr : nir_alu_instr) :
    single_assignment (bi_emit_fexp2_new ctx instr) ctx.temp_base 2 ∧
    single_assignment (bi_emit_flog2_new ctx instr) ctx.temp_base 4 ∧
    single_assignment (bi_emit_deriv ctx instr) ctx.temp_base 5 :=
  ⟨⟨temps_defined_before_fexp2 ctx instr, temp_dest_unique_fexp2 ctx instr,
    temps_all_defined_fexp2 ctx instr⟩,
   ⟨temps_defined_before_flog2 ctx instr, temp_dest_unique_flog2 ctx instr,
    temps_all_defined_flog2 ctx instr⟩,
   ⟨temps_defined_before_deriv ctx instr, temp_dest_unique_deriv ctx instr,
    temps_all_defined_deriv ctx instr⟩⟩

/-- C10: for every source operand, swizzle, destination, bit width and
architecture version, the horizontal (fddx) and vertical (fddy)
derivative sequences agree on every instruction except the second and
third, which agree on every field once their constant payloads are
overwritten; the payloads are 2 and 1 for fddx against 1 and 2 for
fddy. -/
theorem deriv_direction_frame_effect (ctx : bi_context)
    (s w d sz : Nat) :
    (bi_emit_deriv ctx ⟨.nir_op_fddx, s, w, d, sz⟩).length =
      (bi_emit_deriv ctx ⟨.nir_op_fddy, s, w, d, sz⟩).length ∧
    (∀ i, i ≠ 1 → i ≠ 2 →
      getI (bi_emit_deriv ctx ⟨.nir_op_fddx, s, w, d, sz⟩) i =
      getI (bi_emit_deriv ctx ⟨.nir_op_fddy, s, w, d, sz⟩) i) ∧
    ({ getI (bi_emit_deriv ctx ⟨.nir_op_fddx, s, w, d, sz⟩) 1 with
        constant := 0 } =
     { getI (bi_emit_deriv ctx ⟨.nir_op_fddy, s, w, d, sz⟩) 1 with
        constant := 0 }) ∧
    ({ getI (bi_emit_deriv ctx ⟨.nir_op_fddx, s, w, d, sz⟩) 2 with
        constant := 0 } =
     { getI (bi_emit_deriv ctx ⟨.nir_op_fddy, s, w, d, sz⟩) 2 with
        constant := 0 }) ∧
    (getI (bi_emit_deriv ctx ⟨.nir_op_fddx, s, w, d, sz⟩) 1).constant = 2 ∧
    (getI (bi_emit_deriv ctx ⟨.nir_op_fddy, s, w, d, sz⟩) 1).constant = 1 ∧
    (getI (bi_emit_deriv ctx ⟨.nir_op_fddx, s, w, d, sz⟩) 2).constant = 1 ∧
    (getI (bi_emit_deriv ctx ⟨.nir_op_fddy, s, w, d, sz⟩) 2).constant = 2 := by
  refine ⟨rfl, ?_, rfl, rfl, rfl, rfl, rfl, rfl⟩
  intro i h1 h2
  rcases i with _ | _ | _ | _ | _ | _ | n
  · rfl
  · exact absurd rfl h1
  · exact absurd rfl h2
  · rfl
  · rfl
  · rfl
  · rfl
